import Mathlib

/-! Verification of the typed GraphQL client library core: the query constructor
(`ConstructQuery` / `ConstructMutation` / `ConstructSubscription`), the
variable-type inferencer (`queryArguments`), and the GraphQL-aware JSON
decoder (`UnmarshalGraphQL`).

The repository ships only the test files for these subsystems; the
implementation (the query writer, the variable-type inferencer and the
`jsonutil` decoder) is not part of the source tree.  The definitions below
are therefore modelled from the specification, and are checked against the
golden outputs recorded in the repository's tests
(`TestConstructQuery`, `TestConstructMutation`, `TestConstructSubscription`,
`TestQueryArguments`, and the `TestUnmarshalGraphQL_*` family).

Recursive functions over the (nested) shape and JSON trees take an explicit
fuel argument so that every definition is structurally recursive and
evaluates by `rfl` / `decide`; theorems instantiate the fuel with a value
large enough for the inputs at hand.
-/

/-! ASCII-lexicographic order on strings

Modelled from the spec: "The variable header is sorted by variable name,
ASCII lexicographic ascending."  `lexLe` compares two character lists by
code point, which on ASCII strings is exactly ASCII-lexicographic order. -/

def lexLe : List Char → List Char → Bool
  | [], _ => true
  | _ :: _, [] => false
  | a :: as, b :: bs =>
      if a.toNat < b.toNat then true
      else if a.toNat = b.toNat then lexLe as bs
      else false

theorem lexLe_total : ∀ as bs, lexLe as bs = true ∨ lexLe bs as = true
  | [], _ => .inl rfl
  | _ :: _, [] => .inr rfl
  | a :: as, b :: bs => by
      rcases Nat.lt_trichotomy a.toNat b.toNat with h | h | h
      · left; simp [lexLe, h]
      · rcases lexLe_total as bs with ih | ih
        · left; simp [lexLe, h, ih]
        · right; simp [lexLe, h.symm, ih]
      · right; simp [lexLe, h]

theorem lexLe_trans : ∀ as bs cs, lexLe as bs = true → lexLe bs cs = true → lexLe as cs = true
  | [], _, _, _, _ => rfl
  | _ :: _, [], _, h1, _ => by simp [lexLe] at h1
  | _ :: _, _ :: _, [], _, h2 => by simp [lexLe] at h2
  | a :: as, b :: bs, c :: cs, h1, h2 => by
      simp only [lexLe] at h1 h2 ⊢
      by_cases hab : a.toNat < b.toNat
      · by_cases hbc : b.toNat < c.toNat
        · simp [show a.toNat < c.toNat from Nat.lt_trans hab hbc]
        · by_cases hbce : b.toNat = c.toNat
          · simp [show a.toNat < c.toNat by omega]
          · simp [hbc, hbce] at h2
      · by_cases habe : a.toNat = b.toNat
        · by_cases hbc : b.toNat < c.toNat
          · simp [show a.toNat < c.toNat by omega]
          · by_cases hbce : b.toNat = c.toNat
            · have h1' : lexLe as bs = true := by simpa [hab, habe] using h1
              have h2' : lexLe bs cs = true := by simpa [hbc, hbce] using h2
              simp [show ¬ a.toNat < c.toNat by omega, show a.toNat = c.toNat by omega]
              exact lexLe_trans as bs cs h1' h2'
            · simp [hbc, hbce] at h2
        · simp [hab, habe] at h1

/-- ASCII-lexicographic `≤` on strings, by code point. -/
def asciiLe (a b : String) : Bool := lexLe a.data b.data

/-- The character data of an appended string is the appended character data. -/
theorem string_data_append (a b : String) : (a ++ b).data = a.data ++ b.data := rfl

/-! Lower-camel-case name derivation

Modelled from the spec: "A record field with an empty or missing `graphql`
tag contributes its lower-camel-cased name (`DatabaseID` → `databaseId`,
`URL` → `url`, `AvatarURL` → `avatarUrl`).  Rule: the leading run of
uppercase letters is lowercased unless it forms the entire name, and
acronyms at the end (`ID`, `URL`) become camel-cased when followed by
nothing."  The spec's §8 golden scenarios are treated as authoritative for
the edge identifiers. -/

/-- Camel-case an all-uppercase trailing acronym: keep the first letter,
lowercase the rest (`ID` → `Id`, `URL` → `Url`). -/
def camelAcronym : List Char → List Char
  | [] => []
  | c :: rest => c :: rest.map Char.toLower

/-- Lowercase the first character of a character list. -/
def lowerHead : List Char → List Char
  | [] => []
  | c :: rest => c.toLower :: rest

/-- Derive the GraphQL field name from a Go field identifier.
A name that is entirely uppercase is lowercased whole (`URL` → `url`,
`ID` → `id`); otherwise a trailing all-uppercase acronym of length at least
two is camel-cased (`DatabaseID` → `DatabaseId`) and the leading uppercase
run is lowercased up to the letter that starts the next word
(`Database...` → `database...`). -/
def lowerCamelCase (s : String) : String :=
  let cs := s.data
  if cs.all Char.isUpper then ⟨cs.map Char.toLower⟩
  else
    let n := cs.length
    let tr := (cs.reverse.takeWhile Char.isUpper).length
    let cs1 := if 2 ≤ tr then cs.take (n - tr) ++ camelAcronym (cs.drop (n - tr)) else cs
    let ld := (cs1.takeWhile Char.isUpper).length
    let cs2 :=
      if ld ≤ 1 then lowerHead cs1
      else (cs1.take (ld - 1)).map Char.toLower ++ cs1.drop (ld - 1)
    ⟨cs2⟩

/-! Variable values and GraphQL type inference

Modelled from the spec (§4.3): the variable-type inferencer maps a set of
`name → value` bindings to GraphQL type names.  A Go value carried in an
`interface{}` always carries its static type, so a binding is modelled as a
value whose pointer and slice constructors record the static element type;
a `nil` pointer or `nil` slice still knows that type. -/

/-- The static Go type of a variable binding, as seen by reflection.
`custom` covers named Go types, with the name produced either by the
reflected type name (for example `IssueState`) or by the value's
`GetGraphQLType` capability (for example `uuid`). -/
inductive GoType where
  | int
  | float
  | boolean
  | string
  | id
  | custom (name : String)
  | ptr (elem : GoType)
  | slice (elem : GoType)
deriving DecidableEq

/-- A runtime variable value.  Pointer and slice values record the static
element type together with the possibly-absent (`nil`) payload. -/
inductive VarValue where
  | intV (n : Int)
  | floatV
  | boolV (b : Bool)
  | stringV (s : String)
  | idV (s : String)
  | customV (typeName : String)
  | ptrV (elem : GoType) (v : Option VarValue)
  | sliceV (elem : GoType) (elems : Option (List VarValue))

/-- The static type of a variable value.  A `nil` slice or pointer yields
the same static type as a non-`nil` one. -/
def typeOf : VarValue → GoType
  | .intV _ => .int
  | .floatV => .float
  | .boolV _ => .boolean
  | .stringV _ => .string
  | .idV _ => .id
  | .customV n => .custom n
  | .ptrV t _ => .ptr t
  | .sliceV t _ => .slice t

/-- Modelled from the spec: render the GraphQL type of a static Go type.
`nonNull` tracks whether the binding at this position is non-nullable: a
pointer strips it, a slice element restores it ("elements non-null by
default"), and every non-pointer rendering appends `!` exactly when
`nonNull` is set. -/
def writeArgumentType : GoType → Bool → String
  | .ptr t, _ => writeArgumentType t false
  | .slice t, nonNull => "[" ++ writeArgumentType t true ++ "]" ++ (if nonNull then "!" else "")
  | .int, nonNull => "Int" ++ (if nonNull then "!" else "")
  | .float, nonNull => "Float" ++ (if nonNull then "!" else "")
  | .boolean, nonNull => "Boolean" ++ (if nonNull then "!" else "")
  | .string, nonNull => "String" ++ (if nonNull then "!" else "")
  | .id, nonNull => "ID" ++ (if nonNull then "!" else "")
  | .custom n, nonNull => n ++ (if nonNull then "!" else "")

/-- Ordering of variable bindings by name, ASCII-lexicographic. -/
def varLe (p q : String × VarValue) : Prop := asciiLe p.1 q.1 = true

instance : DecidableRel varLe := fun p q => by unfold varLe; infer_instance

instance : IsTotal (String × VarValue) varLe := ⟨fun a b => lexLe_total a.1.data b.1.data⟩

instance : IsTrans (String × VarValue) varLe :=
  ⟨fun a b c => lexLe_trans a.1.data b.1.data c.1.data⟩

/-- The variable map with its entries sorted by variable name.  The Go
implementation iterates over sorted map keys; the map is modelled as an
association list. -/
def sortVariables (vars : List (String × VarValue)) : List (String × VarValue) :=
  List.insertionSort varLe vars

/-- One `$name:Type` token of the variable header. -/
def varToken (p : String × VarValue) : String :=
  "$" ++ p.1 ++ ":" ++ writeArgumentType (typeOf p.2) true

/-- Modelled from the spec: the variable header is the concatenation,
without separator, of one `$name:Type` token per variable, sorted by
variable name. -/
def queryArguments (vars : List (String × VarValue)) : String :=
  String.join ((sortVariables vars).map varToken)


/-! Shapes and the query writer

Modelled from the spec (§3, §4.1, §4.2): a shape is a tree of records
(ordered fields with optional `graphql` / `scalar` tags), sequences,
optionals, leaf scalars, and ordered-pair lists. -/

mutual
inductive TypeShape where
  | leaf
  | record (fields : List FieldSpec)
  | seq (elem : TypeShape)
  | opt (elem : TypeShape)
  | pairs (ps : List PairSpec)

inductive FieldSpec where
  | mk (name : String) (graphqlTag : Option String) (scalarTag : Bool)
      (anonymous : Bool) (shape : TypeShape)

inductive PairSpec where
  | mk (key : String) (shape : TypeShape)
end

/-- Internal command of the query writer: render one shape, the entries of
a record's field list, or the entries of an ordered-pair list.  A `shape`
command yields a singleton list holding the selection; an entries command
yields one rendered entry per emitted field. -/
inductive WCmd where
  | shape (s : TypeShape)
  | fieldEntries (fs : List FieldSpec)
  | pairEntries (ps : List PairSpec)

/-- Modelled from the spec: the recursive emission of a selection set.
Record entries are later joined with `,`; ordered-pair entries are
concatenated without separator (per the golden test outputs); a
`graphql:"-"` field is skipped; a `scalar:"true"` field emits its name
alone; an anonymous embedded record without a tag is inlined; otherwise a
field emits its tag (verbatim) or derived lower-camel-case name followed by
the sub-selection of its shape.  Sequences and optionals are transparent. -/
def writeW : Nat → WCmd → Option (List String)
  | 0, _ => none
  | fuel+1, .shape s =>
    match s with
    | .leaf => some [""]
    | .record fs =>
        (writeW fuel (.fieldEntries fs)).map
          (fun es => ["\x7b" ++ String.intercalate "," es ++ "\x7d"])
    | .seq e => writeW fuel (.shape e)
    | .opt e => writeW fuel (.shape e)
    | .pairs ps =>
        (writeW fuel (.pairEntries ps)).map
          (fun es => ["\x7b" ++ String.join es ++ "\x7d"])
  | _+1, .fieldEntries [] => some []
  | fuel+1, .fieldEntries (.mk name tag sc anon shape :: fs) =>
    if tag = some "-" then writeW fuel (.fieldEntries fs)
    else if sc then
      match writeW fuel (.fieldEntries fs) with
      | some tl => some ((tag.getD (lowerCamelCase name)) :: tl)
      | none => none
    else if anon && tag = none then
      match shape with
      | .record gs =>
        match writeW fuel (.fieldEntries gs), writeW fuel (.fieldEntries fs) with
        | some inner, some tl => some (inner ++ tl)
        | _, _ => none
      | _ => none
    else
      match writeW fuel (.shape shape), writeW fuel (.fieldEntries fs) with
      | some [sel], some tl => some (((tag.getD (lowerCamelCase name)) ++ sel) :: tl)
      | _, _ => none
  | _+1, .pairEntries [] => some []
  | fuel+1, .pairEntries (.mk key shape :: ps) =>
    match writeW fuel (.shape shape), writeW fuel (.pairEntries ps) with
    | some [sel], some tl => some ((key ++ sel) :: tl)
    | _, _ => none

/-- The selection set of a shape (the braced `{...}` string). -/
def writeShape (fuel : Nat) (s : TypeShape) : Option String :=
  match writeW fuel (.shape s) with
  | some [sel] => some sel
  | _ => none

/-- Modelled from the spec: the printed operation directives, wrapped in
single spaces when present (`... @cached ...`). -/
def directivesOut (dirs : List String) : String :=
  if dirs.isEmpty then "" else " " ++ String.intercalate " " dirs ++ " "

/-- Modelled from the spec: `construct_query`.  With variables the header
is emitted after the operation name; an anonymous query with no directives
and no variables omits the `query` keyword entirely. -/
def ConstructQuery (fuel : Nat) (shape : TypeShape) (vars : List (String × VarValue))
    (operationName : String) (directives : List String) : Option String :=
  (writeShape fuel shape).map fun sel =>
    if !vars.isEmpty then
      "query " ++ operationName ++ "(" ++ queryArguments vars ++ ")" ++
        directivesOut directives ++ sel
    else if operationName = "" && directives.isEmpty then sel
    else "query " ++ operationName ++ directivesOut directives ++ sel

/-- Modelled from the spec: `construct_mutation`.  The `mutation` keyword is
always emitted, even for an anonymous operation without variables. -/
def ConstructMutation (fuel : Nat) (shape : TypeShape) (vars : List (String × VarValue))
    (operationName : String) (directives : List String) : Option String :=
  (writeShape fuel shape).map fun sel =>
    if !vars.isEmpty then
      "mutation " ++ operationName ++ "(" ++ queryArguments vars ++ ")" ++
        directivesOut directives ++ sel
    else if operationName = "" && directives.isEmpty then "mutation" ++ sel
    else "mutation " ++ operationName ++ directivesOut directives ++ sel

/-- Modelled from the spec: `construct_subscription`.  The `subscription`
keyword is always emitted, even for an anonymous operation without
variables. -/
def ConstructSubscription (fuel : Nat) (shape : TypeShape) (vars : List (String × VarValue))
    (operationName : String) (directives : List String) : Option String :=
  (writeShape fuel shape).map fun sel =>
    if !vars.isEmpty then
      "subscription " ++ operationName ++ "(" ++ queryArguments vars ++ ")" ++
        directivesOut directives ++ sel
    else if operationName = "" && directives.isEmpty then "subscription" ++ sel
    else "subscription " ++ operationName ++ directivesOut directives ++ sel

/-- The `Viewer` / `RateLimit` query shape of the first `TestConstructQuery`
and `TestConstructSubscription` test cases. -/
def viewerShape : TypeShape :=
  .record [
    .mk "Viewer" none false false (.record [
      .mk "Login" none false false .leaf,
      .mk "CreatedAt" none false false .leaf,
      .mk "ID" none false false .leaf,
      .mk "DatabaseID" none false false .leaf]),
    .mk "RateLimit" none false false (.record [
      .mk "Cost" none false false .leaf,
      .mk "Limit" none false false .leaf,
      .mk "Remaining" none false false .leaf,
      .mk "ResetAt" none false false .leaf])]

/-- The `CreateUser` / `DeleteUser` record shape of `TestConstructMutation`. -/
def createUserShape : TypeShape := .record [.mk "Login" none false false .leaf]

/-- The ordered-pair-list mutation shape of `TestConstructMutation`: two
named mutations at the same selection level, each bound to a pointer to a
user record. -/
def multiMutationShape : TypeShape :=
  .pairs [.mk "createUser(login:$login1)" (.opt createUserShape),
          .mk "deleteUser(login:$login2)" (.opt createUserShape)]

/-- The variable map of the ordered-pair-list mutation test. -/
def loginVars : List (String × VarValue) :=
  [("login1", .stringV "grihabor"), ("login2", .stringV "diman")]


/-! JSON values and compact serialization -/

/-- A decoded JSON value (the `data` portion of a GraphQL response). -/
inductive Json where
  | str (s : String)
  | num (n : Int)
  | bool (b : Bool)
  | null
  | arr (elems : List Json)
  | obj (fields : List (String × Json))

/-- Modelled from the spec: the compact rendering of a JSON value, used
when capturing a custom-scalar subtree as raw bytes.  Whitespace between
tokens is elided; whitespace inside string literals is preserved. -/
def compact : Nat → Json → String
  | 0, _ => ""
  | fuel+1, j =>
    match j with
    | .str s => "\"" ++ s ++ "\""
    | .num n => toString n
    | .bool b => if b then "true" else "false"
    | .null => "null"
    | .arr es => "[" ++ String.intercalate "," (es.map (compact fuel)) ++ "]"
    | .obj kvs =>
        "\x7b" ++ String.intercalate ","
          (kvs.map (fun kv => "\"" ++ kv.1 ++ "\":" ++ compact fuel kv.2)) ++ "\x7d"

/-! Decoder destinations

Modelled from the spec (§4.4): the destination of the decoder is the
caller's shape, mutated in place.  It is modelled as a value tree that
carries both the shape (field names and tags, slice and pointer element
templates) and the current contents. -/

mutual
inductive GoVal where
  | str (s : String)
  | int (n : Int)
  | boolean (b : Bool)
  | raw (bytes : String)
  | record (fields : List GoField)
  | slice (template : GoVal) (elems : Option (List GoVal))
  | ptr (template : GoVal) (val : Option GoVal)
  | pairs (ps : List GoPair)

inductive GoField where
  | mk (name : String) (graphqlTag : Option String) (jsonTag : Option String)
      (scalarTag : Bool) (exported : Bool) (value : GoVal)

inductive GoPair where
  | mk (key : String) (value : GoVal)
end

def GoField.fname : GoField → String
  | .mk n _ _ _ _ _ => n

def GoField.graphqlTag : GoField → Option String
  | .mk _ g _ _ _ _ => g

def GoField.jsonTag : GoField → Option String
  | .mk _ _ j _ _ _ => j

def GoField.scalarTag : GoField → Bool
  | .mk _ _ _ s _ _ => s

def GoField.exported : GoField → Bool
  | .mk _ _ _ _ e _ => e

def GoField.value : GoField → GoVal
  | .mk _ _ _ _ _ v => v

def GoField.withValue : GoField → GoVal → GoField
  | .mk n g j s e _, v => .mk n g j s e v

def GoPair.key : GoPair → String
  | .mk k _ => k

def GoPair.value : GoPair → GoVal
  | .mk _ v => v

def GoPair.withValue : GoPair → GoVal → GoPair
  | .mk k _, v => .mk k v

/-! Key resolution -/

/-- The initial segment of a character list up to (excluding) the first
stop character. -/
def takeUntil (stops : List Char) : List Char → List Char
  | [] => []
  | c :: rest => if c ∈ stops then [] else c :: takeUntil stops rest

/-- The response key named by a `graphql` tag: the tag text cut at the
first `(` (arguments) or `:` (the part before the colon is the alias, which
is the key the server responds with). -/
def tagKeyName (tag : String) : String := ⟨takeUntil ['(', ':'] tag.data⟩

/-- A tag beginning with `... on` marks an inline fragment. -/
def isFragmentTag (tag : String) : Bool := "... on".data.isPrefixOf tag.data

/-- The name carried by a `json` tag (cut at the first `,`, dropping
options such as `omitempty`). -/
def jsonName (tag : String) : String := ⟨takeUntil [','] tag.data⟩

/-- Modelled from the spec: whether a JSON object key resolves to a record
field as a direct destination.  An unexported field never matches.  A
non-fragment `graphql` tag matches by its key name; a `graphql:"-"` field
matches by field name (so the key is skipped silently); otherwise the
`json` tag, the lower-camel-cased field name, and the exact field name are
consulted. -/
def directMatch (f : GoField) (k : String) : Bool :=
  f.exported &&
    match f.graphqlTag with
    | some "-" => lowerCamelCase f.fname == k || f.fname == k
    | some t => !isFragmentTag t && tagKeyName t == k
    | none =>
        (match f.jsonTag with | some j => jsonName j == k | none => false)
          || lowerCamelCase f.fname == k || f.fname == k

/-- Whether a record field is an inline-fragment destination (exported and
tagged `... on Type`). -/
def isFragmentField (f : GoField) : Bool :=
  f.exported && (match f.graphqlTag with | some t => isFragmentTag t | none => false)

/-- How many destinations (direct fields, plus fields of inline-fragment
sub-records, recursively) a key resolves to at one JSON object level. -/
def countInVal : Nat → GoVal → String → Nat
  | 0, _, _ => 0
  | fuel+1, .record fs, k =>
      fs.foldl (fun acc f =>
        acc + (if directMatch f k then 1 else 0)
            + (if isFragmentField f then countInVal fuel f.value k else 0)) 0
  | fuel+1, .pairs ps, k =>
      ps.foldl (fun acc p =>
        if isFragmentTag p.key then acc + countInVal fuel p.value k
        else acc + (if tagKeyName p.key == k then 1 else 0)) 0
  | _+1, _, _ => 0

/-- The number of candidate destination places at one JSON object level:
the object itself plus every inline-fragment sub-record, recursively.
This is the `N` of the unknown-key error message. -/
def closureCount : Nat → GoVal → Nat
  | 0, _ => 0
  | fuel+1, .record fs =>
      fs.foldl (fun acc f =>
        acc + (if isFragmentField f then closureCount fuel f.value else 0)) 1
  | fuel+1, .pairs ps =>
      ps.foldl (fun acc p =>
        acc + (if isFragmentTag p.key then closureCount fuel p.value else 0)) 1
  | _+1, _ => 1

/-- The unknown-key error message, exactly as asserted by
`TestUnmarshalGraphQL_unexportedField`. -/
def unknownKeyMsg (k : String) (n : Nat) : String :=
  "struct field for \"" ++ k ++ "\" doesn't exist in any of " ++ toString n ++
    " places to unmarshal"

/-- Modelled from the spec: a `scalar:"true"` destination captures the
entire following JSON value as raw bytes without descending.  A pointer
destination is allocated around the captured bytes. -/
def scalarCapture (fuel : Nat) (old : GoVal) (j : Json) : GoVal :=
  match old with
  | .ptr t _ => .ptr t (some (.raw (compact fuel j)))
  | _ => .raw (compact fuel j)

/-- Internal command of the decoder: decode one JSON value into a
destination, or fan one object key out to every matching destination at
this level (direct fields and inline-fragment sub-records). -/
inductive DCmd where
  | dval (dst : GoVal) (j : Json)
  | dkey (dst : GoVal) (k : String) (j : Json)

/-- Modelled from the spec (§4.4): the decoder.  An object is decoded key
by key; a key that resolves to no destination yields the unknown-key error
naming the key and the count of candidate places.  A key write is fanned
out to every matching direct field and into every inline-fragment
sub-record.  An array overwrites the destination slice (a JSON `null`
yields the nil slice; `[]` yields an empty non-nil slice).  `null` into a
pointer destination clears it; into a required scalar it leaves the zero
value.  A `scalar:"true"` field captures the raw subtree. -/
def decodeD : Nat → DCmd → Except String GoVal
  | 0, _ => .error "ran out of fuel"
  | fuel+1, .dval dst j =>
    match dst, j with
    | .ptr tmpl _, .null => .ok (.ptr tmpl none)
    | .ptr tmpl _, jv => (decodeD fuel (.dval tmpl jv)).map (fun v => .ptr tmpl (some v))
    | .record fs, .obj kvs =>
        kvs.foldlM (fun cur kv =>
          if countInVal fuel cur kv.1 == 0 then
            .error (unknownKeyMsg kv.1 (closureCount fuel cur))
          else decodeD fuel (.dkey cur kv.1 kv.2)) (GoVal.record fs)
    | .pairs ps, .obj kvs =>
        kvs.foldlM (fun cur kv =>
          if countInVal fuel cur kv.1 == 0 then
            .error (unknownKeyMsg kv.1 (closureCount fuel cur))
          else decodeD fuel (.dkey cur kv.1 kv.2)) (GoVal.pairs ps)
    | .record fs, .null => .ok (.record fs)
    | .pairs ps, .null => .ok (.pairs ps)
    | .slice tmpl _, .arr js =>
        (js.mapM (fun e => decodeD fuel (.dval tmpl e))).map (fun vs => .slice tmpl (some vs))
    | .slice tmpl _, .null => .ok (.slice tmpl none)
    | .str _, .str s => .ok (.str s)
    | .str _, .null => .ok (.str "")
    | .int _, .num n => .ok (.int n)
    | .int _, .null => .ok (.int 0)
    | .boolean _, .bool b => .ok (.boolean b)
    | .boolean _, .null => .ok (.boolean false)
    | .raw _, jv => .ok (.raw (compact fuel jv))
    | _, _ => .error "type mismatch in decoding"
  | fuel+1, .dkey dst k j =>
    match dst with
    | .record fs =>
        (fs.mapM (fun f =>
          if isFragmentField f then
            (decodeD fuel (.dkey f.value k j)).map f.withValue
          else if directMatch f k then
            if f.graphqlTag == some "-" then pure f
            else if f.scalarTag then pure (f.withValue (scalarCapture fuel f.value j))
            else (decodeD fuel (.dval f.value j)).map f.withValue
          else pure f)).map GoVal.record
    | .pairs ps =>
        (ps.mapM (fun p =>
          if isFragmentTag p.key then
            (decodeD fuel (.dkey p.value k j)).map p.withValue
          else if tagKeyName p.key == k then
            (decodeD fuel (.dval p.value j)).map p.withValue
          else pure p)).map GoVal.pairs
    | _ => .error "cannot decode object key into non-object destination"

/-- Modelled from the spec: `decode_response` — decode a GraphQL response
JSON value into the destination shape. -/
def UnmarshalGraphQL (fuel : Nat) (j : Json) (dst : GoVal) : Except String GoVal :=
  decodeD fuel (.dval dst j)

/-! Destinations and inputs taken from the repository's decoder tests -/

/-- The `actor` sub-record of `TestUnmarshalGraphQL_union`. -/
def actorVal (login : String) : GoVal :=
  .record [.mk "Login" none none false true (.str login)]

/-- The `closedEvent` / `reopenedEvent` record of `TestUnmarshalGraphQL_union`
(the `time.Time` field is modelled by its string form). -/
def eventVal (login createdAt : String) : GoVal :=
  .record [.mk "Actor" none none false true (actorVal login),
           .mk "CreatedAt" none none false true (.str createdAt)]

/-- The `issueTimelineItem` destination of `TestUnmarshalGraphQL_union`:
a `__typename` field plus two inline-fragment sub-records. -/
def issueTimelineItem (tn l1 c1 l2 c2 : String) : GoVal :=
  .record [
    .mk "Typename" (some "__typename") none false true (.str tn),
    .mk "ClosedEvent" (some "... on ClosedEvent") none false true (eventVal l1 c1),
    .mk "ReopenedEvent" (some "... on ReopenedEvent") none false true (eventVal l2 c2)]

/-- The response JSON of the union tests. -/
def unionInput (tn created login : String) : Json :=
  .obj [("__typename", .str tn), ("createdAt", .str created),
        ("actor", .obj [("login", .str login)])]

/-- The ordered-pair `actor` of `TestUnmarshalGraphQL_orderedMapUnion`. -/
def actorPairs (login : String) : GoVal := .pairs [.mk "login" (.str login)]

/-- The ordered-pair event of `TestUnmarshalGraphQL_orderedMapUnion`. -/
def eventPairs (login createdAt : String) : GoVal :=
  .pairs [.mk "actor" (actorPairs login), .mk "createdAt" (.str createdAt)]

/-- The ordered-pair destination of `TestUnmarshalGraphQL_orderedMapUnion`. -/
def itemPairs (tn l1 c1 l2 c2 : String) : GoVal :=
  .pairs [.mk "__typename" (.str tn),
          .mk "... on ClosedEvent" (eventPairs l1 c1),
          .mk "... on ReopenedEvent" (eventPairs l2 c2)]

/-- The destination of `TestUnmarshalGraphQL_unexportedField`: a record
whose only field is unexported. -/
def unexportedQuery : GoVal :=
  .record [.mk "foo" none none false false (.ptr (.str "") none)]

/-- The destination of `TestUnmarshalGraphQL_jsonTag`: field `Foo` with
`json:"baz"`. -/
def jsonTagQuery (v : String) : GoVal :=
  .record [.mk "Foo" none (some "baz") false true (.str v)]

/-- The destination of `TestUnmarshalGraphQL_array`: three string slices. -/
def arrayQuery (foo bar baz : Option (List GoVal)) : GoVal :=
  .record [.mk "Foo" none none false true (.slice (.str "") foo),
           .mk "Bar" none none false true (.slice (.str "") bar),
           .mk "Baz" none none false true (.slice (.str "") baz)]

/-- The destination of `TestUnmarshalGraphQL_fieldAsScalar`: two raw
custom-scalar fields (one behind a pointer), a plain string, and a
map-typed custom scalar. -/
def scalarQuery (dat : GoVal) (dp : Option GoVal) (another : String) (tags : GoVal) : GoVal :=
  .record [.mk "Data" none none true true dat,
           .mk "DataPtr" none none true true (.ptr (.raw "") dp),
           .mk "Another" none none false true (.str another),
           .mk "Tags" none none true true tags]


/-! Supporting definitions and lemmas for the claim theorems -/

/-- The `Viewer` / `Tags` query shape with a `scalar:"true"` map field,
from `TestConstructQuery`. -/
def tagsShape : TypeShape :=
  .record [
    .mk "Viewer" none false false (.record [
      .mk "ID" none false false .leaf,
      .mk "Login" none false false .leaf,
      .mk "CreatedAt" none false false .leaf,
      .mk "DatabaseID" none false false .leaf]),
    .mk "Tags" none true false .leaf]

/-- Whether every custom type name inside a static type is free of spaces.
Built-in scalar names never contain a space. -/
def noSpaceType : GoType → Prop
  | .custom n => ' ' ∉ n.data
  | .ptr t => noSpaceType t
  | .slice t => noSpaceType t
  | _ => True

theorem string_append_nil (s : String) : s ++ "" = s := by
  cases s with
  | mk d =>
      show String.mk (d ++ []) = String.mk d
      rw [List.append_nil]

theorem string_append_assoc (a b c : String) : a ++ b ++ c = a ++ (b ++ c) := by
  cases a with
  | mk da =>
      cases b with
      | mk db =>
          cases c with
          | mk dc =>
              show String.mk (da ++ db ++ dc) = String.mk (da ++ (db ++ dc))
              rw [List.append_assoc]

theorem writeArgumentType_no_space : ∀ (t : GoType) (nn : Bool), noSpaceType t →
    ' ' ∉ (writeArgumentType t nn).data
  | .ptr t, _, h => writeArgumentType_no_space t false h
  | .slice t, nn, h => by
      have ih := writeArgumentType_no_space t true h
      cases nn <;>
        simp [writeArgumentType, string_data_append, List.mem_append] <;>
        exact fun hc => absurd hc ih
  | .int, nn, _ => by cases nn <;> decide
  | .float, nn, _ => by cases nn <;> decide
  | .boolean, nn, _ => by cases nn <;> decide
  | .string, nn, _ => by cases nn <;> decide
  | .id, nn, _ => by cases nn <;> decide
  | .custom n, nn, h => by
      have h' : ' ' ∉ n.data := h
      cases nn <;>
        simp [writeArgumentType, string_data_append, List.mem_append] <;>
        exact fun hc => absurd hc h'

theorem varToken_no_space (p : String × VarValue) (h1 : ' ' ∉ p.1.data)
    (h2 : noSpaceType (typeOf p.2)) : ' ' ∉ (varToken p).data := by
  have ht := writeArgumentType_no_space (typeOf p.2) true h2
  simp [varToken, string_data_append, List.mem_append]
  refine ⟨?_, ?_⟩
  · exact fun hc => absurd hc h1
  · exact fun hc => absurd hc ht

/-! Sanity checks replaying the repository test scenarios against the
modelled definitions. -/

example : lowerCamelCase "DatabaseID" = "databaseId" := by decide
example : lowerCamelCase "URL" = "url" := by decide
example : lowerCamelCase "AvatarURL" = "avatarUrl" := by decide
example : lowerCamelCase "ID" = "id" := by decide
example : lowerCamelCase "CreatedAt" = "createdAt" := by decide
example : lowerCamelCase "Viewer" = "viewer" := by decide
example : queryArguments [("required", .sliceV (.custom "IssueState") none),
    ("optional", .ptrV (.slice (.custom "IssueState")) none)] =
    "$optional:[IssueState!]$required:[IssueState!]!" := by decide
example : queryArguments [("a", .intV 123), ("b", .ptrV .boolean (some (.boolV true)))] =
    "$a:Int!$b:Boolean" := by decide
example : queryArguments [("ids", .sliceV (.ptr (.custom "uuid")) (some []))] =
    "$ids:[uuid]!" := by decide

example : writeShape 20 viewerShape =
    some "{viewer{login,createdAt,id,databaseId},rateLimit{cost,limit,remaining,resetAt}}" := by
  decide
example : ConstructMutation 20 multiMutationShape loginVars "" [] =
    some "mutation ($login1:String!$login2:String!){createUser(login:$login1){login}deleteUser(login:$login2){login}}" := by
  decide

example : UnmarshalGraphQL 20 (unionInput "ClosedEvent" "2017-06-29T04:12:01Z" "shurcooL-test")
    (issueTimelineItem "" "" "" "" "") =
    .ok (issueTimelineItem "ClosedEvent" "shurcooL-test" "2017-06-29T04:12:01Z"
      "shurcooL-test" "2017-06-29T04:12:01Z") := by rfl

example : UnmarshalGraphQL 20 (unionInput "ClosedEvent" "2017-06-29T04:12:01Z" "shurcooL-test")
    (itemPairs "" "" "" "" "") =
    .ok (itemPairs "ClosedEvent" "shurcooL-test" "2017-06-29T04:12:01Z"
      "shurcooL-test" "2017-06-29T04:12:01Z") := by rfl

example : UnmarshalGraphQL 20 (.obj [("foo", .str "bar")]) unexportedQuery =
    .error "struct field for \"foo\" doesn't exist in any of 1 places to unmarshal" := by rfl

example : UnmarshalGraphQL 20 (.obj [("foo", .str "bar")]) (jsonTagQuery "") =
    .ok (jsonTagQuery "bar") := by rfl

example : UnmarshalGraphQL 20 (.obj [("baz", .str "bar")]) (jsonTagQuery "") =
    .ok (jsonTagQuery "bar") := by rfl

example : UnmarshalGraphQL 20
    (.obj [("foo", .arr [.str "bar", .str "baz"]), ("bar", .arr []), ("baz", .null)])
    (arrayQuery none none none) =
    .ok (arrayQuery (some [.str "bar", .str "baz"]) (some []) none) := by rfl

example : UnmarshalGraphQL 20
    (.obj [("Data", .obj [("ValA", .num 1), ("ValB", .str "foo")]),
           ("DataPtr", .obj [("ValC", .num 3), ("ValD", .bool false)]),
           ("Another", .str "stuff"),
           ("Tags", .obj [("keyA", .num 2), ("keyB", .num 3)])])
    (scalarQuery (.raw "") none "" (.raw "")) =
    .ok (scalarQuery (.raw "\x7b\"ValA\":1,\"ValB\":\"foo\"\x7d")
      (some (.raw "\x7b\"ValC\":3,\"ValD\":false\x7d")) "stuff"
      (.raw "\x7b\"keyA\":2,\"keyB\":3\x7d")) := by rfl

/-! Claim theorems -/

/-- C1: decoding a JSON object into a record with multiple inline-fragment
fields reads the fragments' keys at the same JSON level as the direct
fields and writes each key's decoded value into every inline-fragment
candidate sub-record that declares a matching sub-field: both the
`ClosedEvent` and the `ReopenedEvent` destinations receive the same
`createdAt` and `actor.login` values, for the record destination and for
the ordered-pair-list destination alike. -/
theorem inline_fragment_merge (tn created login t0 l1 c1 l2 c2 : String) :
    UnmarshalGraphQL 20 (unionInput tn created login) (issueTimelineItem t0 l1 c1 l2 c2) =
      .ok (issueTimelineItem tn login created login created) ∧
    UnmarshalGraphQL 20 (unionInput tn created login) (itemPairs t0 l1 c1 l2 c2) =
      .ok (itemPairs tn login created login created) :=
  ⟨rfl, rfl⟩

/-- C10: an empty JSON array decoded into a sequence destination produces
an empty but present (non-nil) sequence, while a JSON `null` produces the
nil (absent) sequence, so the two resulting destination states are
distinguishable; the concrete `TestUnmarshalGraphQL_array` scenario decodes
accordingly. -/
theorem array_empty_vs_null :
    (∀ (fuel : Nat) (tmpl : GoVal) (old : Option (List GoVal)),
        UnmarshalGraphQL (fuel+1) (.arr []) (.slice tmpl old) = .ok (.slice tmpl (some []))) ∧
    (∀ (fuel : Nat) (tmpl : GoVal) (old : Option (List GoVal)),
        UnmarshalGraphQL (fuel+1) .null (.slice tmpl old) = .ok (.slice tmpl none)) ∧
    (some ([] : List GoVal)).isSome = true ∧
    (none : Option (List GoVal)).isSome = false ∧
    UnmarshalGraphQL 20
      (.obj [("foo", .arr [.str "bar", .str "baz"]), ("bar", .arr []), ("baz", .null)])
      (arrayQuery none none none) =
      .ok (arrayQuery (some [.str "bar", .str "baz"]) (some []) none) :=
  ⟨fun _ _ _ => rfl, fun _ _ _ => rfl, rfl, rfl, rfl⟩

/-- C7: decoding fails on a JSON object key that resolves to no destination
field at its level (direct fields, `json` tags, derived names, and
inline-fragment sub-records all considered, unexported fields never), and
the error is exactly `struct field for "<key>" doesn't exist in any of N
places to unmarshal`, where `N` counts the candidate destination places at
that level. -/
theorem unknown_key_error (fuel : Nat) (fs : List GoField) (k : String) (v : Json)
    (rest : List (String × Json)) (h : countInVal (fuel+1) (GoVal.record fs) k = 0) :
    UnmarshalGraphQL (fuel+2) (.obj ((k, v) :: rest)) (.record fs) =
      .error ("struct field for \"" ++ k ++ "\" doesn't exist in any of " ++
        toString (closureCount (fuel+1) (GoVal.record fs)) ++ " places to unmarshal") := by
  simp [UnmarshalGraphQL, decodeD, h, unknownKeyMsg, string_append_assoc]
  rfl

/-- Witness for C7, at the `TestUnmarshalGraphQL_unexportedField` input: the
only field of the destination record is unexported, hence not a candidate,
and the key `foo` fails with a count of 1 place. -/
theorem unknown_key_error_witness :
    UnmarshalGraphQL 6 (.obj [("foo", .str "bar")]) unexportedQuery =
      .error "struct field for \"foo\" doesn't exist in any of 1 places to unmarshal" :=
  unknown_key_error 4 [.mk "foo" none none false false (.ptr (.str "") none)]
    "foo" (.str "bar") [] (by decide)

/-- C9 counterexample: the claim says the `json` tag's value is used *in
place of* the name derived from the field's own name, which would make the
key `foo` fail to match field `Foo` tagged `json:"baz"`.  In fact — exactly
as `TestUnmarshalGraphQL_jsonTag` asserts — decoding `{"foo": "bar"}` into
that record succeeds and sets `Foo`, because the name-derived matching is
still consulted alongside the tag. -/
theorem json_tag_counterexample :
    UnmarshalGraphQL 20 (.obj [("foo", .str "bar")]) (jsonTagQuery "") =
      .ok (jsonTagQuery "bar") ∧
    directMatch (.mk "Foo" none (some "baz") false true (.str "")) "foo" = true :=
  ⟨rfl, rfl⟩

/-- C9 amended: for a record field carrying a `json` tag (and no `graphql`
tag), the tag's value is consulted as an additional matching alias — the
decoder matches the field if the `json` tag name equals the key, or if the
lower-camel-cased or exact field name equals the key; the tag does not
replace field-name matching.  Decoding by the tag alias and by the derived
name both succeed on the `TestUnmarshalGraphQL_jsonTag` record. -/
theorem json_tag_alias :
    (∀ (name jt k : String) (sc ex : Bool) (v : GoVal),
        directMatch (.mk name none (some jt) sc ex v) k =
          (ex && (jsonName jt == k || lowerCamelCase name == k || name == k))) ∧
    UnmarshalGraphQL 20 (.obj [("baz", .str "bar")]) (jsonTagQuery "") =
      .ok (jsonTagQuery "bar") ∧
    UnmarshalGraphQL 20 (.obj [("foo", .str "bar")]) (jsonTagQuery "") =
      .ok (jsonTagQuery "bar") :=
  ⟨fun _ _ _ _ _ _ => rfl, rfl, rfl⟩

/-- C2: for a non-empty variable map, the emitted header is the
separator-free concatenation of exactly one `$name:Type` token per
variable, with the tokens ordered by variable name ASCII-lexicographically
ascending, and no space inside a token (provided the variable names and
custom type names themselves contain no space, as Go identifiers do). -/
theorem queryArguments_header (vars : List (String × VarValue)) (hne : vars ≠ []) :
    queryArguments vars = String.join ((sortVariables vars).map varToken) ∧
    (sortVariables vars).Perm vars ∧
    List.Sorted (fun a b => asciiLe a b = true) ((sortVariables vars).map Prod.fst) ∧
    (∀ p ∈ vars, varToken p = "$" ++ p.1 ++ ":" ++ writeArgumentType (typeOf p.2) true) ∧
    (∀ p ∈ vars, ' ' ∉ p.1.data → noSpaceType (typeOf p.2) → ' ' ∉ (varToken p).data) := by
  refine ⟨rfl, List.perm_insertionSort varLe vars, ?_, fun p _ => rfl,
    fun p _ h1 h2 => varToken_no_space p h1 h2⟩
  have hs : List.Sorted varLe (sortVariables vars) :=
    List.sorted_insertionSort varLe vars
  exact (List.pairwise_map).mpr hs

/-- Witness for C2 at a concrete two-variable map (names out of order). -/
theorem queryArguments_header_witness :
    queryArguments [("b", VarValue.ptrV .boolean (some (.boolV true))), ("a", VarValue.intV 123)] =
      String.join ((sortVariables [("b", VarValue.ptrV .boolean (some (.boolV true))),
        ("a", VarValue.intV 123)]).map varToken) ∧
    (sortVariables [("b", VarValue.ptrV .boolean (some (.boolV true))),
      ("a", VarValue.intV 123)]).Perm
      [("b", VarValue.ptrV .boolean (some (.boolV true))), ("a", VarValue.intV 123)] ∧
    List.Sorted (fun a b => asciiLe a b = true)
      ((sortVariables [("b", VarValue.ptrV .boolean (some (.boolV true))),
        ("a", VarValue.intV 123)]).map Prod.fst) ∧
    (∀ p ∈ [("b", VarValue.ptrV .boolean (some (.boolV true))), ("a", VarValue.intV 123)],
        varToken p = "$" ++ p.1 ++ ":" ++ writeArgumentType (typeOf p.2) true) ∧
    (∀ p ∈ [("b", VarValue.ptrV .boolean (some (.boolV true))), ("a", VarValue.intV 123)],
        ' ' ∉ p.1.data → noSpaceType (typeOf p.2) → ' ' ∉ (varToken p).data) :=
  queryArguments_header
    [("b", VarValue.ptrV .boolean (some (.boolV true))), ("a", VarValue.intV 123)]
    (List.cons_ne_nil _ _)

/-- C3: the inferred GraphQL type carries a trailing `!` exactly when the
binding is direct (not pointer-wrapped): the non-null rendering of any
static type is the nullable rendering followed by `!`, except for pointer
types, which never receive the suffix.  A sequence of `T` renders as
`[T']` with its elements rendered non-null by default, with an outer `!`
exactly when the sequence binding itself is direct; and a `nil` slice (or
`nil` pointer to a slice) yields the same type text as a non-`nil` binding
of the same static type, exactly as in the `TestQueryArguments` nil-slice
case. -/
theorem variable_nullability :
    (∀ t : GoType, writeArgumentType t true =
        writeArgumentType t false ++ (match t with | .ptr _ => "" | _ => "!")) ∧
    (∀ (t : GoType) (es : Option (List VarValue)),
        writeArgumentType (typeOf (.sliceV t es)) true =
          "[" ++ writeArgumentType t true ++ "]" ++ "!") ∧
    (∀ (t : GoType) (v : Option VarValue),
        writeArgumentType (typeOf (.ptrV (.slice t) v)) true =
          "[" ++ writeArgumentType t true ++ "]") ∧
    (∀ (t : GoType) (es : List VarValue),
        writeArgumentType (typeOf (.sliceV t none)) true =
          writeArgumentType (typeOf (.sliceV t (some es))) true) ∧
    (∀ (t : GoType) (v : VarValue),
        writeArgumentType (typeOf (.ptrV t none)) true =
          writeArgumentType (typeOf (.ptrV t (some v))) true) ∧
    queryArguments [("required", .sliceV (.custom "IssueState") none),
        ("optional", .ptrV (.slice (.custom "IssueState")) none)] =
      "$optional:[IssueState!]$required:[IssueState!]!" := by
  refine ⟨?_, fun _ _ => ?_, fun _ _ => ?_, fun _ _ => rfl, fun _ _ => rfl, by decide⟩
  · intro t
    cases t <;> simp [writeArgumentType, string_append_nil]
  · simp [writeArgumentType, typeOf, string_append_nil]
  · simp [writeArgumentType, typeOf, string_append_nil]

/-- C4: with no operation name, no directives, and no variables,
`ConstructQuery` returns the bare braced selection set (for every shape,
and in particular exactly the golden string for the `Viewer` / `RateLimit`
shape), while `ConstructMutation` and `ConstructSubscription` always emit
their keyword even with name, directives, and variables all absent. -/
theorem anonymous_query_keyword :
    (∀ (fuel : Nat) (s : TypeShape), ConstructQuery fuel s [] "" [] = writeShape fuel s) ∧
    (∀ (fuel : Nat) (s : TypeShape), ConstructMutation fuel s [] "" [] =
        (writeShape fuel s).map (fun sel => "mutation" ++ sel)) ∧
    (∀ (fuel : Nat) (s : TypeShape), ConstructSubscription fuel s [] "" [] =
        (writeShape fuel s).map (fun sel => "subscription" ++ sel)) ∧
    ConstructQuery 20 viewerShape [] "" [] =
      some "{viewer{login,createdAt,id,databaseId},rateLimit{cost,limit,remaining,resetAt}}" ∧
    ConstructMutation 20 viewerShape [] "" [] =
      some "mutation{viewer{login,createdAt,id,databaseId},rateLimit{cost,limit,remaining,resetAt}}" ∧
    ConstructSubscription 20 viewerShape [] "" [] =
      some "subscription{viewer{login,createdAt,id,databaseId},rateLimit{cost,limit,remaining,resetAt}}" := by
  refine ⟨?_, ?_, ?_, by decide, by decide, by decide⟩
  · intro fuel s
    cases h : writeShape fuel s <;> simp [ConstructQuery, h]
  · intro fuel s
    cases h : writeShape fuel s <;> simp [ConstructMutation, h]
  · intro fuel s
    cases h : writeShape fuel s <;> simp [ConstructSubscription, h]

/-- C5: a record field with an empty or missing `graphql` tag contributes
its lower-camel-cased name to the query (the general emission equation for
an untagged, non-scalar, non-embedded field), where the derivation maps
`DatabaseID` to `databaseId`, `URL` to `url`, `AvatarURL` to `avatarUrl`,
and `ID` to `id`; the `actor` record from the tests renders with all three
name forms. -/
theorem derived_field_names :
    (∀ (fuel : Nat) (name : String) (shape : TypeShape) (fs : List FieldSpec),
        writeW (fuel+1) (.fieldEntries (.mk name none false false shape :: fs)) =
          match writeW fuel (.shape shape), writeW fuel (.fieldEntries fs) with
          | some [sel], some tl => some ((lowerCamelCase name ++ sel) :: tl)
          | _, _ => none) ∧
    lowerCamelCase "DatabaseID" = "databaseId" ∧
    lowerCamelCase "URL" = "url" ∧
    lowerCamelCase "AvatarURL" = "avatarUrl" ∧
    lowerCamelCase "ID" = "id" ∧
    writeShape 20 (.record [.mk "Login" none false false .leaf,
        .mk "AvatarURL" none false false .leaf, .mk "URL" none false false .leaf]) =
      some "{login,avatarUrl,url}" :=
  ⟨fun _ _ _ _ => rfl, by decide, by decide, by decide, by decide, by decide⟩

/-- C6: a `scalar:"true"` field is emitted by the query writer as its name
alone with no brace-delimited sub-selection (whatever its shape), and the
decoder stores the field's entire JSON value — object, array, or primitive
— as its compact raw bytes (whitespace between tokens elided, whitespace
inside string literals preserved) and then continues decoding the keys that
follow; the concrete `TestConstructQuery` tags case and the
`TestUnmarshalGraphQL_fieldAsScalar` case behave accordingly. -/
theorem scalar_field_capture :
    (∀ (fuel : Nat) (name : String) (shape : TypeShape),
        writeW (fuel+2) (.fieldEntries [.mk name none true false shape]) =
          some [lowerCamelCase name]) ∧
    (∀ (v : Json) (s : String),
        UnmarshalGraphQL 10 (.obj [("Data", v), ("Another", .str s)])
          (.record [.mk "Data" none none true true (.raw ""),
                    .mk "Another" none none false true (.str "")]) =
        .ok (.record [.mk "Data" none none true true (.raw (compact 8 v)),
                      .mk "Another" none none false true (.str s)])) ∧
    compact 5 (.obj [("ValA", .num 1), ("ValB", .str "fo o")]) =
      "\x7b\"ValA\":1,\"ValB\":\"fo o\"\x7d" ∧
    ConstructQuery 20 tagsShape [] "" [] =
      some "{viewer{id,login,createdAt,databaseId},tags}" ∧
    UnmarshalGraphQL 20
      (.obj [("Data", .obj [("ValA", .num 1), ("ValB", .str "foo")]),
             ("DataPtr", .obj [("ValC", .num 3), ("ValD", .bool false)]),
             ("Another", .str "stuff"),
             ("Tags", .obj [("keyA", .num 2), ("keyB", .num 3)])])
      (scalarQuery (.raw "") none "" (.raw "")) =
      .ok (scalarQuery (.raw "\x7b\"ValA\":1,\"ValB\":\"foo\"\x7d")
        (some (.raw "\x7b\"ValC\":3,\"ValD\":false\x7d")) "stuff"
        (.raw "\x7b\"keyA\":2,\"keyB\":3\x7d")) :=
  ⟨fun _ _ _ => rfl, fun _ _ => rfl, by decide, by decide, by rfl⟩

/-- C8 counterexample: the claim says consecutive entries of every
selection set — including ones produced from ordered-pair-list shapes —
are separated by exactly one comma.  The ordered-pair mutation of
`TestConstructMutation` emits two consecutive entries
(`createUser(...){login}` and `deleteUser(...){login}`), yet the emitted
operation string contains no comma at all. -/
theorem pair_separator_counterexample :
    ConstructMutation 20 multiMutationShape loginVars "" [] =
      some "mutation ($login1:String!$login2:String!){createUser(login:$login1){login}deleteUser(login:$login2){login}}" ∧
    ("mutation ($login1:String!$login2:String!){createUser(login:$login1){login}deleteUser(login:$login2){login}}".data.contains ',') = false := by
  exact ⟨by decide, by decide⟩

/-- C8 amended: consecutive entries of a selection set produced from a
record shape are joined with exactly one comma and no spaces, while
consecutive entries of a selection set produced from an ordered-pair-list
shape are concatenated with no separator at all; the record golden output
carries the commas and the ordered-pair mutation golden output carries
none. -/
theorem selection_separator :
    (∀ (fuel : Nat) (fs : List FieldSpec),
        writeW (fuel+1) (.shape (.record fs)) =
          (writeW fuel (.fieldEntries fs)).map
            (fun es => ["\x7b" ++ String.intercalate "," es ++ "\x7d"])) ∧
    (∀ (fuel : Nat) (ps : List PairSpec),
        writeW (fuel+1) (.shape (.pairs ps)) =
          (writeW fuel (.pairEntries ps)).map
            (fun es => ["\x7b" ++ String.join es ++ "\x7d"])) ∧
    ConstructQuery 20 viewerShape [] "" [] =
      some "{viewer{login,createdAt,id,databaseId},rateLimit{cost,limit,remaining,resetAt}}" ∧
    ConstructMutation 20 multiMutationShape loginVars "" [] =
      some "mutation ($login1:String!$login2:String!){createUser(login:$login1){login}deleteUser(login:$login2){login}}" :=
  ⟨fun _ _ => rfl, fun _ _ => rfl, by decide, by decide⟩
